import Mathlib

/-!
Shallow embedding of the quanta-strategy-analysis pipeline (src/main.py) and
proofs of the specified properties.

The pipeline works on an in-memory daily OHLCV series.  Dates are modelled as
integers (day numbers), prices and volumes as rationals; pandas NaN cells that
arise from shifting past the ends of the series are modelled with Option, and
the pandas rule that any comparison against NaN is false is modelled by the
match falling through to false.  All functions below are translated from the
source: process_holding (src/main.py lines 14-22), calculate_data (lines
24-32), and the body of main after the fetch (lines 121-149).
-/

namespace Quanta

/-- One row of the loaded dataframe: a daily OHLCV bar (spec section 3; the
columns produced by fetch in src/main.py lines 8-12). -/
structure Bar where
  date : Int
  open_ : ℚ
  high : ℚ
  low : ℚ
  close : ℚ
  volume : ℚ
deriving DecidableEq, Repr, Inhabited

/-- A bar after process_holding: the original bar plus the Sell Date,
Sell Price, Previous Close and Return percentage columns added by
src/main.py lines 15-19. -/
structure ProjBar where
  bar : Bar
  sellDate : Int
  sellPrice : ℚ
  prevClose : Option ℚ
  returnPct : ℚ
deriving DecidableEq, Repr, Inhabited

/-- The row that process_holding produces at position i, or none when the
row is dropped.  Sell Date is the own date plus the holding period in
calendar days (line 15: data[Date] + timedelta(days=holding_period)); Sell
Price is the close shifted back by the holding period (line 16); Return
percentage likewise uses the close H positions ahead (line 19).  dropna on
the Return column (line 20) drops exactly the rows whose shift ran past the
end, i.e. those with i + H outside the series. -/
def proj_at (data : List Bar) (H i : Nat) : Option ProjBar :=
  match data[i]?, data[i + H]? with
  | some b, some bf =>
      some { bar := b
             sellDate := b.date + (H : Int)
             sellPrice := bf.close
             prevClose := if i = 0 then none else (data[i - 1]?).map Bar.close
             returnPct := (bf.close - b.close) / b.close * 100 }
  | _, _ => none

/-- process_holding (src/main.py lines 14-22): annotate every row of the
series, keeping exactly the rows whose forward shift is defined. -/
def process_holding (data : List Bar) (H : Nat) : List ProjBar :=
  (List.range data.length).filterMap (proj_at data H)

/-- The Close column of the series handed to calculate_data. -/
def closes (data : List ProjBar) : List ℚ :=
  data.map fun r => r.bar.close

/-- The Volume column of the series handed to calculate_data. -/
def volumes (data : List ProjBar) : List ℚ :=
  data.map fun r => r.bar.volume

/-- The value of the trailing 20-bar rolling volume mean at position i
(the payload of rolling(window=20).mean() in src/main.py line 25). -/
def avg_window (data : List ProjBar) (i : Nat) : ℚ :=
  (((volumes data).drop (i - 19)).take 20).sum / 20

/-- The Avg Vol (Last 20d) column (src/main.py line 25):
rolling(window=20).mean() is NaN (none) until 20 rows are available. -/
def avg_vol (data : List ProjBar) (i : Nat) : Option ℚ :=
  if 19 ≤ i ∧ i < data.length then some (avg_window data i) else none

/-- Close.pct_change() (src/main.py line 28): the fractional change from the
previous row, NaN (none) on the first row. -/
def pct_change (data : List ProjBar) : Nat → Option ℚ
  | 0 => none
  | j + 1 =>
      match (closes data)[j + 1]?, (closes data)[j]? with
      | some c, some p => some ((c - p) / p)
      | _, _ => none

/-- The percent change value at position i written with total lookups, used
to state the detector property: value of pct_change times 100. -/
def pct_change_val (data : List ProjBar) (i : Nat) : ℚ :=
  ((closes data).getD i 0 - (closes data).getD (i - 1) 0) / (closes data).getD (i - 1) 0

/-- The Vol Breakout column (src/main.py lines 26-29): volume strictly above
the rolling average times (volume_threshold / 100), and fractional price
change at least (change_threshold / 100).  A NaN in either operand makes the
pandas comparison false, hence the fall-through to false. -/
def vol_breakout (data : List ProjBar) (V C : ℚ) (i : Nat) : Bool :=
  match avg_vol data i, pct_change data i, (volumes data)[i]? with
  | some a, some p, some v => decide (a * (V / 100) < v) && decide (C / 100 ≤ p)
  | _, _, _ => false

/-- A row of the dataframe after calculate_data: the projected bar plus the
Avg Vol (Last 20d) and Vol Breakout columns. -/
structure CalcBar where
  proj : ProjBar
  avgVolF : Option ℚ
  volBreakout : Bool
deriving DecidableEq, Repr, Inhabited

/-- The annotated row of calculate_data at position i of its input. -/
def calc_at (data : List ProjBar) (V C : ℚ) (i : Nat) : Option CalcBar :=
  (data[i]?).map fun r =>
    { proj := r, avgVolF := avg_vol data i, volBreakout := vol_breakout data V C i }

/-- calculate_data (src/main.py lines 24-32): add the rolling-average and
breakout columns, then keep only the rows whose Vol Breakout is true (the
reset_index(drop=True) does not change row order or content). -/
def calculate_data (data : List ProjBar) (V C : ℚ) : List CalcBar :=
  ((List.range data.length).filterMap (calc_at data V C)).filter fun c => c.volBreakout

/-- Win rate of src/main.py line 145:
len(data[data[Return %] > 0]) / len(data) * 100. -/
def win_rate (trades : List CalcBar) : ℚ :=
  ((trades.filter fun t => decide (0 < t.proj.returnPct)).length : ℚ)
    / (trades.length : ℚ) * 100

/-- Mean return of src/main.py line 136: data[Return %].mean(). -/
def mean_return (trades : List CalcBar) : ℚ :=
  (trades.map fun t => t.proj.returnPct).sum / (trades.length : ℚ)

/-- The columns of the dataframe returned by fetch, in order. -/
def fetch_columns : List String :=
  ["Date", "Open", "High", "Low", "Close", "Volume"]

/-- The columns after process_holding added its four columns
(src/main.py lines 15-19). -/
def process_holding_columns : List String :=
  fetch_columns ++ ["Sell Date", "Sell Price", "Previous Close", "Return %"]

/-- The columns after calculate_data added its two columns
(src/main.py lines 25-26). -/
def calculate_data_columns : List String :=
  process_holding_columns ++ ["Avg Vol (Last 20d)", "Vol Breakout"]

/-- The columns after generate_charts added the index column
(src/main.py line 35), which happens before the download button is built. -/
def charted_columns : List String :=
  calculate_data_columns ++ ["index"]

/-- The header row written by data.to_csv() at src/main.py line 149: the
unnamed pandas index first, then every dataframe column. -/
def csv_header : List String :=
  "" :: charted_columns

/-- The reportable columns of spec section 4.3: date, close, volume,
trailing-average-volume, sell date, sell price, return percentage. -/
def reportable_columns : List String :=
  ["Date", "Close", "Volume", "Avg Vol (Last 20d)", "Sell Date", "Sell Price", "Return %"]

/-- The download file name built at src/main.py line 149. -/
def report_file_name (ticker : String) : String :=
  ticker ++ "-report.csv"

/-- Rendering of a rational cell at full precision (pandas to_csv applies no
rounding). -/
def rat_str (q : ℚ) : String :=
  if q.den = 1 then toString q.num else toString q.num ++ "/" ++ toString q.den

/-- Rendering of a missing (NaN) cell. -/
def nan_cell : String :=
  ""

/-- One data row of the exported file: the pandas index, then every column
of the dataframe at full precision. -/
def csv_row (i : Nat) (t : CalcBar) : List String :=
  [toString i, toString t.proj.bar.date, rat_str t.proj.bar.open_,
   rat_str t.proj.bar.high, rat_str t.proj.bar.low, rat_str t.proj.bar.close,
   rat_str t.proj.bar.volume, toString t.proj.sellDate,
   rat_str t.proj.sellPrice, (t.proj.prevClose.map rat_str).getD nan_cell,
   rat_str t.proj.returnPct, (t.avgVolF.map rat_str).getD nan_cell,
   if t.volBreakout then "True" else "False", toString i]

/-- data.to_csv() at src/main.py line 149: the header row followed by one
row per trade. -/
def to_csv (trades : List CalcBar) : List (List String) :=
  csv_header :: (trades.enum.map fun p => csv_row p.1 p.2)

/-- The message shown by st.error at src/main.py line 131. -/
def no_trades_msg : String :=
  "No trades found."

/-- The observable outcome of one run of main after the pipeline: either the
early return with the error message (src/main.py lines 130-132), or the
rendered report with its statistics, chart and downloadable file
(lines 134-149). -/
inductive ReportResult where
  | noTrades (message : String) : ReportResult
  | report (winRate meanReturn : ℚ) (chartRendered : Bool)
      (csv : List (List String)) (fileName : String) : ReportResult
deriving DecidableEq

/-- src/main.py lines 130-149: short-circuit on an empty trade table,
otherwise compute the statistics, render the chart and offer the export. -/
def run_report (ticker : String) (trades : List CalcBar) : ReportResult :=
  if trades.isEmpty then ReportResult.noTrades no_trades_msg
  else ReportResult.report (win_rate trades) (mean_return trades) true
    (to_csv trades) (report_file_name ticker)

/-- src/main.py lines 121-128: the start date is shifted back by the holding
period (line 121), the loader is invoked on the widened window (line 124),
the series is projected (line 126), rows past the nominal end date are
filtered out (line 127), and the detector runs (line 128). -/
def main_trades (loader : Int → Int → List Bar) (s e : Int) (H : Nat)
    (V C : ℚ) : List CalcBar :=
  let s2 := s - (H : Int)
  let fetched := loader s2 (e + (H : Int))
  let projected := process_holding fetched H
  let visible := projected.filter fun r => decide (r.bar.date ≤ e)
  calculate_data visible V C

/-- One full run of main (src/main.py lines 121-149) given a loader standing
for fetch. -/
def run_main (ticker : String) (loader : Int → Int → List Bar) (s e : Int)
    (H : Nat) (V C : ℚ) : ReportResult :=
  run_report ticker (main_trades loader s e H V C)

/-! ## Concrete inputs used to exercise the theorems -/

/-- A two-bar series with a gap between the bar dates (day 0 and day 3),
as happens for any instrument that does not trade every calendar day. -/
def gap_bars : List Bar :=
  [{ date := 0, open_ := 1, high := 1, low := 1, close := 1, volume := 1 },
   { date := 3, open_ := 1, high := 1, low := 1, close := 2, volume := 1 }]

/-- A three-bar series, shorter than a holding period of five. -/
def short_series : List Bar :=
  [{ date := 0, open_ := 1, high := 1, low := 1, close := 1, volume := 1 },
   { date := 1, open_ := 1, high := 1, low := 1, close := 1, volume := 1 },
   { date := 2, open_ := 1, high := 1, low := 1, close := 1, volume := 1 }]

/-- A two-bar series whose close doubles from the first bar to the second. -/
def c7_series : List Bar :=
  [{ date := 0, open_ := 1, high := 1, low := 1, close := 1, volume := 1 },
   { date := 1, open_ := 1, high := 1, low := 1, close := 2, volume := 1 }]

/-- A projected series of twenty identical bars, long enough for the
trailing 20-bar volume window to be defined at position 19. -/
def d20 : List ProjBar :=
  (List.range 20).map fun i =>
    { bar := { date := (i : Int), open_ := 1, high := 1, low := 1, close := 1, volume := 1 }
      sellDate := (i : Int) + 10
      sellPrice := 1
      prevClose := none
      returnPct := 0 }

/-- A single winning trade. -/
def c8_trade : CalcBar :=
  { proj := { bar := { date := 0, open_ := 1, high := 1, low := 1, close := 1, volume := 1 }
              sellDate := 10, sellPrice := 2, prevClose := none, returnPct := 100 }
    avgVolF := none
    volBreakout := true }

/-- A loader that returns no bars anywhere. -/
def c9_loader : Int → Int → List Bar :=
  fun _ _ => []

/-- A loader that returns no bars only when asked to start at day -3. -/
def c9_loader2 : Int → Int → List Bar :=
  fun a _ =>
    if a = -3 then []
    else [{ date := 0, open_ := 1, high := 1, low := 1, close := 1, volume := 1 }]

/-- A ticker symbol for the concrete runs. -/
def demo_ticker : String :=
  "BTC-USD"

/-! ## Helper lemmas -/

/-- A filterMap over an index range can be truncated at the point past which
the function returns none. -/
theorem range_filterMap_truncate {α : Type} (f : Nat → Option α) (m n : Nat)
    (hmn : m ≤ n) (hnone : ∀ i, m ≤ i → f i = none) :
    (List.range n).filterMap f = (List.range m).filterMap f := by
  obtain ⟨k, rfl⟩ := Nat.exists_eq_add_of_le hmn
  rw [List.range_add, List.filterMap_append]
  have h0 : ((List.range k).map fun x => m + x).filterMap f = [] := by
    rw [List.filterMap_eq_nil_iff]
    intro a ha
    obtain ⟨b, _, rfl⟩ := List.mem_map.mp ha
    exact hnone _ (Nat.le_add_right m b)
  rw [h0, List.append_nil]

/-- filterMap of positional lookups over an initial index range is a take. -/
theorem range_filterMap_getElem {α : Type} (l : List α) (m : Nat) :
    ((List.range m).filterMap fun i => l[i]?) = l.take m := by
  induction m with
  | zero => simp
  | succ m ih =>
      rw [List.range_succ, List.filterMap_append, ih, List.take_succ]
      cases h : l[m]? <;> simp [List.filterMap_cons, h]

/-- A filterMap whose function is everywhere some is a map. -/
theorem filterMap_eq_map_of_isSome {α β : Type} [Inhabited β] (f : α → Option β)
    (l : List α) (h : ∀ a ∈ l, (f a).isSome) :
    l.filterMap f = l.map fun a => (f a).getD default := by
  induction l with
  | nil => rfl
  | cons a l ih =>
      obtain ⟨y, hy⟩ := Option.isSome_iff_exists.mp (h a (List.mem_cons_self a l))
      rw [List.filterMap_cons, List.map_cons, hy,
        ih fun b hb => h b (List.mem_cons_of_mem a hb)]
      simp [hy]

/-- A positional lookup below the length is the total lookup with a default
that is never used. -/
theorem getElem?_eq_some_getD {α : Type} [Inhabited α] (l : List α) (k : Nat)
    (hk : k < l.length) : l[k]? = some (l.getD k default) := by
  rw [List.getD_eq_getElem?_getD, List.getElem?_eq_getElem hk]
  rfl

/-- The annotated row at position i exists exactly when the forward shift
lands inside the series. -/
theorem proj_at_eq_some (data : List Bar) (H i : Nat) (h : i + H < data.length) :
    proj_at data H i =
      some { bar := data.getD i default
             sellDate := (data.getD i default).date + (H : Int)
             sellPrice := (data.getD (i + H) default).close
             prevClose := if i = 0 then none else (data[i - 1]?).map Bar.close
             returnPct := ((data.getD (i + H) default).close - (data.getD i default).close)
               / (data.getD i default).close * 100 } := by
  unfold proj_at
  rw [getElem?_eq_some_getD data i (by omega), getElem?_eq_some_getD data (i + H) h]

/-- The annotated row at position i is dropped when the forward shift runs
past the end of the series. -/
theorem proj_at_eq_none (data : List Bar) (H i : Nat) (h : data.length ≤ i + H) :
    proj_at data H i = none := by
  unfold proj_at
  rw [List.getElem?_eq_none h]
  cases data[i]? <;> rfl

/-- process_holding keeps exactly the first (length - H) rows. -/
theorem process_holding_eq (data : List Bar) (H : Nat) :
    process_holding data H =
      (List.range (data.length - H)).filterMap (proj_at data H) := by
  unfold process_holding
  exact range_filterMap_truncate _ _ _ (Nat.sub_le _ _)
    fun i hi => proj_at_eq_none data H i (by omega)

/-- Position i of the projector output is the annotated row built from
position i of its input, whenever the forward shift at i is defined. -/
theorem process_holding_getElem (data : List Bar) (H i : Nat)
    (h : i + H < data.length) :
    (process_holding data H)[i]? = proj_at data H i := by
  rw [process_holding_eq]
  have hall : ∀ j ∈ List.range (data.length - H), (proj_at data H j).isSome := by
    intro j hj
    have hj' : j < data.length - H := List.mem_range.mp hj
    rw [proj_at_eq_some data H j (by omega)]
    rfl
  rw [filterMap_eq_map_of_isSome _ _ hall, List.getElem?_map,
    List.getElem?_range (show i < data.length - H by omega)]
  simp only [Option.map_some']
  rw [proj_at_eq_some data H i h]
  rfl

/-- Every row of the detector output is a row of the detector input. -/
theorem mem_calculate_data_proj (data : List ProjBar) (V C : ℚ) (t : CalcBar)
    (ht : t ∈ calculate_data data V C) : t.proj ∈ data := by
  unfold calculate_data at ht
  obtain ⟨hmem, -⟩ := List.mem_filter.mp ht
  obtain ⟨i, -, hsome⟩ := List.mem_filterMap.mp hmem
  unfold calc_at at hsome
  obtain ⟨r, hr, hrt⟩ := Option.map_eq_some'.mp hsome
  obtain ⟨hi, hget⟩ := List.getElem?_eq_some.mp hr
  have : t.proj = r := by rw [← hrt]
  rw [this, ← hget]
  exact List.getElem_mem hi

/-! ## Claim theorems -/

/-- C1: the claim says the annotated sell date is the date of the bar H
positions ahead in the sequence.  The code instead computes it by calendar
arithmetic (own date plus H days, src/main.py line 15): on the two-bar
series with dates 0 and 3 and H = 1, the kept bar gets sell date 1 while
the bar one position ahead is dated 3, even though the sell price is taken
from that bar. -/
theorem C1_sell_date_is_calendar_not_positional :
    (process_holding gap_bars 1).map ProjBar.sellDate = [1] ∧
    (gap_bars[1]?).map Bar.date = some 3 ∧
    (process_holding gap_bars 1).map ProjBar.sellPrice = [(2 : ℚ)] ∧
    (gap_bars[1]?).map Bar.close = some (2 : ℚ) ∧
    (1 : Int) ≠ 3 := by
  exact ⟨by decide, by decide, rfl, rfl, by decide⟩

/-- C5: a series with fewer than H + 1 bars projects to the empty output,
and in general the projector output consists of exactly the input bars
outside the final H positions, in order, never null-filled. -/
theorem C5_projector_drops_tail (data : List Bar) (H : Nat) :
    (data.length < H + 1 → process_holding data H = []) ∧
    (process_holding data H).map ProjBar.bar = data.take (data.length - H) := by
  constructor
  · intro h
    rw [process_holding_eq]
    have h0 : data.length - H = 0 := by omega
    rw [h0]
    rfl
  · rw [process_holding_eq, List.map_filterMap]
    have hcongr : ∀ i ∈ List.range (data.length - H),
        (proj_at data H i).map ProjBar.bar = data[i]? := by
      intro i hi
      have hi' : i + H < data.length := by
        have := List.mem_range.mp hi
        omega
      rw [proj_at_eq_some data H i hi', getElem?_eq_some_getD data i (by omega)]
      rfl
    rw [List.filterMap_congr hcongr, range_filterMap_getElem]

/-- Witness for C5 at a concrete input: three bars and a holding period of
five give an empty projector output. -/
theorem C5_projector_witness :
    process_holding short_series 5 = [] ∧
    (process_holding short_series 5).map ProjBar.bar =
      short_series.take (short_series.length - 5) :=
  ⟨(C5_projector_drops_tail short_series 5).1 (by decide),
   (C5_projector_drops_tail short_series 5).2⟩

/-- C7: every kept bar carries the close of the bar H positions ahead as
its sell price, and its return percentage is
(sell price - close) / close * 100 on its own close. -/
theorem C7_sell_price_and_return (data : List Bar) (H i : Nat)
    (h : i + H < data.length) :
    ∃ pb bf, (process_holding data H)[i]? = some pb ∧
      data[i + H]? = some bf ∧
      data[i]? = some pb.bar ∧
      pb.sellPrice = bf.close ∧
      pb.returnPct = (pb.sellPrice - pb.bar.close) / pb.bar.close * 100 := by
  have hp := process_holding_getElem data H i h
  rw [proj_at_eq_some data H i h] at hp
  exact ⟨_, data.getD (i + H) default, hp, getElem?_eq_some_getD data (i + H) h,
    getElem?_eq_some_getD data i (by omega), rfl, rfl⟩

/-- Witness for C7 at a concrete input: the first bar of the two-bar
doubling series, with a holding period of one. -/
theorem C7_sell_price_witness :
    ∃ pb bf, (process_holding c7_series 1)[0]? = some pb ∧
      c7_series[0 + 1]? = some bf ∧
      c7_series[0]? = some pb.bar ∧
      pb.sellPrice = bf.close ∧
      pb.returnPct = (pb.sellPrice - pb.bar.close) / pb.bar.close * 100 :=
  C7_sell_price_and_return c7_series 1 0 (by decide)

/-- C3: with an empty trade table the run reports the no-trades message and
produces no report value at all, so neither the win rate nor the chart nor
the export is ever computed (they live only in the report constructor). -/
theorem C3_no_trades_short_circuit (ticker : String) (trades : List CalcBar)
    (h : trades = []) :
    run_report ticker trades = ReportResult.noTrades no_trades_msg := by
  subst h
  rfl

/-- Witness for C3 at a concrete input: the empty trade table. -/
theorem C3_no_trades_witness :
    run_report demo_ticker [] = ReportResult.noTrades no_trades_msg :=
  C3_no_trades_short_circuit demo_ticker [] rfl

/-- C2: at every position where the rolling average and the percent change
are defined, the breakout flag is true exactly when the volume strictly
exceeds the rolling 20-bar average times V / 100 and the percent price
change from the previous bar is at least C; and the detector output is
exactly the input restricted to the flagged positions in order. -/
theorem C2_breakout_iff_and_filter (data : List ProjBar) (V C : ℚ) (i : Nat)
    (h19 : 19 ≤ i) (hlen : i < data.length) :
    (vol_breakout data V C i = true ↔
      avg_window data i * (V / 100) < (volumes data).getD i 0 ∧
      C ≤ pct_change_val data i * 100) ∧
    (calculate_data data V C).map CalcBar.proj =
      ((List.range data.length).filter fun j => vol_breakout data V C j).filterMap
        fun j => data[j]? := by
  have getDsome : ∀ (l : List ℚ) (k : Nat), k < l.length → l[k]? = some (l.getD k 0) := by
    intro l k hk
    rw [List.getD_eq_getElem?_getD, List.getElem?_eq_getElem hk]
    rfl
  constructor
  · have hvl : i < (volumes data).length := by
      rw [volumes, List.length_map]
      exact hlen
    have hcl : i < (closes data).length := by
      rw [closes, List.length_map]
      exact hlen
    have hav : avg_vol data i = some (avg_window data i) := by
      unfold avg_vol
      rw [if_pos ⟨h19, hlen⟩]
    obtain ⟨j, rfl⟩ : ∃ j, i = j + 1 := ⟨i - 1, by omega⟩
    have hp : pct_change data (j + 1) =
        some (((closes data).getD (j + 1) 0 - (closes data).getD j 0)
          / (closes data).getD j 0) := by
      simp only [pct_change]
      rw [getDsome _ _ hcl, getDsome _ _ (by omega : j < (closes data).length)]
    have hv : (volumes data)[j + 1]? = some ((volumes data).getD (j + 1) 0) :=
      getDsome _ _ hvl
    unfold vol_breakout
    rw [hav, hp, hv]
    simp only [Bool.and_eq_true, decide_eq_true_eq]
    exact and_congr Iff.rfl (div_le_iff₀ (by norm_num : (0 : ℚ) < 100))
  · unfold calculate_data
    rw [List.filter_filterMap, List.map_filterMap, List.filterMap_filter]
    apply List.filterMap_congr
    intro k hk
    have hk' : k < data.length := List.mem_range.mp hk
    unfold calc_at
    rw [List.getElem?_eq_getElem hk']
    by_cases hb : vol_breakout data V C k <;>
      simp [Option.filter, hb]

/-- Witness for C2 at a concrete input: position 19 of the twenty-bar
constant series, with thresholds V = 200 and C = 2. -/
theorem C2_breakout_witness :
    (vol_breakout d20 200 2 19 = true ↔
      avg_window d20 19 * (200 / 100) < (volumes d20).getD 19 0 ∧
      (2 : ℚ) ≤ pct_change_val d20 19 * 100) ∧
    (calculate_data d20 200 2).map CalcBar.proj =
      ((List.range d20.length).filter fun j => vol_breakout d20 200 2 j).filterMap
        fun j => d20[j]? :=
  C2_breakout_iff_and_filter d20 200 2 19 (by decide) (by decide)

/-- C6: a bar at position below 19 is never flagged, whatever the series
and thresholds, because its rolling volume average is undefined; and the
first bar, whose percent change is undefined, is never flagged. -/
theorem C6_warmup_never_flagged (data : List ProjBar) (V C : ℚ) (i : Nat) :
    (i < 19 → vol_breakout data V C i = false) ∧
    (i = 0 → pct_change data i = none ∧ vol_breakout data V C i = false) := by
  have hflag : ∀ k, k < 19 → vol_breakout data V C k = false := by
    intro k hk
    have hnone : avg_vol data k = none := by
      unfold avg_vol
      rw [if_neg (by omega : ¬(19 ≤ k ∧ k < data.length))]
    unfold vol_breakout
    rw [hnone]
  exact ⟨hflag i, fun h0 => ⟨by rw [h0]; rfl, by rw [h0]; exact hflag 0 (by omega)⟩⟩

/-- Witness for C6 at concrete inputs: positions 5 and 0 of the empty
series with thresholds 1 and 1. -/
theorem C6_warmup_witness :
    vol_breakout ([] : List ProjBar) 1 1 5 = false ∧
    (pct_change ([] : List ProjBar) 0 = none ∧
      vol_breakout ([] : List ProjBar) 1 1 0 = false) :=
  ⟨(C6_warmup_never_flagged [] 1 1 5).1 (by decide),
   (C6_warmup_never_flagged [] 1 1 0).2 rfl⟩

/-- C8: on a non-empty trade table the win rate is the number of trades
with positive return over the trade count times 100, hence between 0 and
100, and the mean return is the arithmetic mean of the returns. -/
theorem C8_win_rate_and_mean (trades : List CalcBar) (h : trades ≠ []) :
    win_rate trades =
      ((trades.filter fun t => decide (0 < t.proj.returnPct)).length : ℚ)
        / (trades.length : ℚ) * 100 ∧
    0 ≤ win_rate trades ∧ win_rate trades ≤ 100 ∧
    mean_return trades =
      (trades.map fun t => t.proj.returnPct).sum / (trades.length : ℚ) := by
  have hn : (0 : ℚ) < (trades.length : ℚ) := by
    exact_mod_cast List.length_pos.mpr h
  refine ⟨rfl, ?_, ?_, rfl⟩
  · unfold win_rate
    positivity
  · unfold win_rate
    have hle : ((trades.filter fun t => decide (0 < t.proj.returnPct)).length : ℚ)
        ≤ (trades.length : ℚ) := by
      exact_mod_cast List.length_filter_le _ _
    calc ((trades.filter fun t => decide (0 < t.proj.returnPct)).length : ℚ)
          / (trades.length : ℚ) * 100
        ≤ 1 * 100 :=
          mul_le_mul_of_nonneg_right ((div_le_one hn).mpr hle) (by norm_num)
      _ = 100 := by norm_num

/-- Witness for C8 at a concrete input: the single winning trade. -/
theorem C8_win_rate_witness :
    win_rate [c8_trade] =
      (([c8_trade].filter fun t => decide (0 < t.proj.returnPct)).length : ℚ)
        / (([c8_trade] : List CalcBar).length : ℚ) * 100 ∧
    0 ≤ win_rate [c8_trade] ∧ win_rate [c8_trade] ≤ 100 ∧
    mean_return [c8_trade] =
      ([c8_trade].map fun t => t.proj.returnPct).sum
        / (([c8_trade] : List CalcBar).length : ℚ) :=
  C8_win_rate_and_mean [c8_trade] (List.cons_ne_nil _ _)

/-- C9: the loader is invoked on the window widened by the holding period
on both sides (start shifted back at src/main.py line 121, end extended at
line 124), and the whole run depends on the loader only through its value
at that widened window. -/
theorem C9_fetch_window_widened (L L2 : Int → Int → List Bar) (s e : Int)
    (H : Nat) (V C : ℚ)
    (h : L (s - (H : Int)) (e + (H : Int)) = L2 (s - (H : Int)) (e + (H : Int))) :
    main_trades L s e H V C =
      calculate_data
        ((process_holding (L (s - (H : Int)) (e + (H : Int))) H).filter
          fun r => decide (r.bar.date ≤ e)) V C ∧
    main_trades L s e H V C = main_trades L2 s e H V C := by
  refine ⟨rfl, ?_⟩
  simp only [main_trades]
  rw [h]

/-- Witness for C9 at concrete inputs: two loaders that agree on the
widened window but not elsewhere, with s = 0, e = 10 and H = 3. -/
theorem C9_fetch_window_witness :
    main_trades c9_loader 0 10 3 1 1 =
      calculate_data
        ((process_holding (c9_loader (0 - ((3 : Nat) : Int)) (10 + ((3 : Nat) : Int))) 3).filter
          fun r => decide (r.bar.date ≤ 10)) 1 1 ∧
    main_trades c9_loader 0 10 3 1 1 = main_trades c9_loader2 0 10 3 1 1 :=
  C9_fetch_window_widened c9_loader c9_loader2 0 10 3 1 1 (by decide)

/-- C10: every trade of the final report is dated no later than the
nominal end date, because the rows past it are filtered out (src/main.py
line 127) before the detector runs. -/
theorem C10_trades_within_nominal_end (L : Int → Int → List Bar) (s e : Int)
    (H : Nat) (V C : ℚ) :
    (main_trades L s e H V C).all (fun t => decide (t.proj.bar.date ≤ e)) = true := by
  rw [List.all_eq_true]
  intro t ht
  rw [decide_eq_true_eq]
  have hmem : t.proj ∈ (process_holding (L (s - (H : Int)) (e + (H : Int))) H).filter
      (fun r => decide (r.bar.date ≤ e)) :=
    mem_calculate_data_proj _ V C t ht
  obtain ⟨-, hdec⟩ := List.mem_filter.mp hmem
  exact of_decide_eq_true hdec

/-- C4 counterexample: the header row actually written by the export is not
the reportable-columns header of spec section 4.3, with or without the
leading unnamed index column. -/
theorem C4_header_counterexample :
    csv_header ≠ reportable_columns ∧ csv_header ≠ "" :: reportable_columns := by
  exact ⟨by decide, by decide⟩

/-- C4 amended: the export is named ticker-report.csv and has one data row
per trade, but its header row is the full dataframe column set (unnamed
index, OHLCV columns, the projector and detector columns, and the chart
index column), not the seven reportable columns, and cells are written at
full precision. -/
theorem C4_export_actual_format (ticker : String) (trades : List CalcBar) :
    report_file_name ticker = ticker ++ "-report.csv" ∧
    (to_csv trades).head? = some csv_header ∧
    (to_csv trades).length = trades.length + 1 ∧
    csv_header = "" :: ["Date", "Open", "High", "Low", "Close", "Volume",
      "Sell Date", "Sell Price", "Previous Close", "Return %",
      "Avg Vol (Last 20d)", "Vol Breakout", "index"] := by
  refine ⟨rfl, rfl, ?_, by decide⟩
  simp [to_csv]

end Quanta
